import Mathlib

/-!
Verification of the nets-hackathon-speedtest repository (server.py, client.py,
config.py): a shallow embedding of the discovery protocol, the TCP and UDP
transfer protocols, and the client orchestration, with theorems checking the
specification's claims against the code.
-/

set_option maxHeartbeats 1000000

namespace Speedtest

/-! ## Constants (config.py) -/

def MAGIC_COOKIE : Nat := 0xabcddcba

def MTYPE_OFFER : Nat := 0x2

def MTYPE_REQUEST : Nat := 0x3

def MTYPE_PAYLOAD : Nat := 0x4

def CONST_SIZE : Nat := 1024

def BROADCAST_PORT : Nat := 39457

/-! ## Wire codec

`struct.unpack` with a fixed format requires the buffer length to equal the
format's size exactly; otherwise it raises `struct.error`.  All integers are
big-endian.  Bytes are modelled as natural numbers (each `< 256` on a real
wire; the decoders below do not depend on that bound). -/

/-- Big-endian accumulation of a byte list into a natural number. -/
def beNat (bytes : List Nat) : Nat := bytes.foldl (fun acc b => acc * 256 + b) 0

/-- `struct.unpack('!IBHH', data)` — Offer: cookie, type, udp port, tcp port.
Requires exactly 9 bytes; returns `none` (models `struct.error`) otherwise. -/
def unpack_offer (data : List Nat) : Option (Nat × Nat × Nat × Nat) :=
  match data with
  | [c0, c1, c2, c3, t, u0, u1, p0, p1] =>
    some (beNat [c0, c1, c2, c3], t, beNat [u0, u1], beNat [p0, p1])
  | _ => none

/-- `struct.unpack('!IBQ', data)` — Request: cookie, type, requested size.
Requires exactly 13 bytes. -/
def unpack_request (data : List Nat) : Option (Nat × Nat × Nat) :=
  match data with
  | [c0, c1, c2, c3, t, s0, s1, s2, s3, s4, s5, s6, s7] =>
    some (beNat [c0, c1, c2, c3], t, beNat [s0, s1, s2, s3, s4, s5, s6, s7])
  | _ => none

/-! ## UDP transfer server (server.py, process_udp_connection)

A sent segment is recorded as `(total_segments, segment_index, payload_len)`:
the two header fields that vary plus the length of the synthetic payload
(`bytearray(random.getrandbits(8) ...)` — content is random, only its length
is wire-relevant).

In the source, `remaining_bytes = file_size_bytes - segment_index * CONST_SIZE`
is an exact Python integer; for every generated index `segment_index <
num_segments` we have `segment_index * CONST_SIZE < file_size_bytes`, so the
natural-number subtraction below agrees with it. -/

/-- The list `segments_list` built by `process_udp_connection` for a requested
size `S`: `num_segments = (S + CONST_SIZE - 1) // CONST_SIZE` segments, the
`i`-th carrying header fields `(num_segments, i)` and
`min(CONST_SIZE, S - i*CONST_SIZE)` payload bytes. -/
def udp_segments (S : Nat) : List (Nat × Nat × Nat) :=
  let num_segments := (S + CONST_SIZE - 1) / CONST_SIZE
  (List.range num_segments).map
    (fun segment_index =>
      (num_segments, segment_index, min CONST_SIZE (S - segment_index * CONST_SIZE)))

/-- The order in which `process_udp_connection` sends segment indices:
`for start_index in range(0, n, 32): for i in range(start_index,
min(start_index + 32, n)): sendto(segments_list[i])`. -/
def burst_send (n start : Nat) : List Nat :=
  if h : start < n then
    List.range' start (min (start + 32) n - start) ++ burst_send n (start + 32)
  else []
termination_by n - start
decreasing_by omega

/-- `process_udp_connection`: unpack the request (13 bytes exactly, else
`struct.error` and nothing is sent), validate the cookie and type (else
ignore), then build the segments and send them in bursts of 32.  The result is
the list of sent datagrams, in send order. -/
def process_udp_connection (packet_data : List Nat) : List (Nat × Nat × Nat) :=
  match unpack_request packet_data with
  | none => []
  | some (cookie, message_type, file_size_bytes) =>
    if cookie ≠ MAGIC_COOKIE ∨ message_type ≠ MTYPE_REQUEST then []
    else
      let segments_list := udp_segments file_size_bytes
      (burst_send segments_list.length 0).map
        (fun i => segments_list.getD i (0, 0, 0))

/-! ### Burst order lemmas: the burst loop sends indices `0, 1, ..., n-1`
exactly once each, in order. -/

theorem burst_send_eq_range'_aux (k : Nat) :
    ∀ n start, n - start ≤ k → burst_send n start = List.range' start (n - start) := by
  induction k with
  | zero =>
    intro n start hle
    rw [burst_send, dif_neg (by omega : ¬ start < n)]
    rw [(by omega : n - start = 0)]
    simp
  | succ k ih =>
    intro n start hle
    rw [burst_send]
    by_cases h : start < n
    · rw [dif_pos h, ih n (start + 32) (by omega)]
      by_cases h32 : start + 32 ≤ n
      · have hmin : min (start + 32) n - start = 32 := by omega
        have hsub : n - (start + 32) = n - start - 32 := by omega
        rw [hmin, hsub, List.range'_append_1 start 32 (n - start - 32),
          (by omega : n - start - 32 + 32 = n - start)]
      · have hmin : min (start + 32) n - start = n - start := by omega
        have hsub : n - (start + 32) = 0 := by omega
        rw [hmin, hsub]
        simp
    · rw [dif_neg h]
      rw [(by omega : n - start = 0)]
      simp

theorem burst_send_eq_range' (n start : Nat) :
    burst_send n start = List.range' start (n - start) :=
  burst_send_eq_range'_aux n n start (by omega)

theorem burst_send_zero (n : Nat) : burst_send n 0 = List.range n := by
  rw [burst_send_eq_range' n 0, Nat.sub_zero, List.range_eq_range']

theorem map_getD_range {α : Type} (l : List α) (d : α) :
    (List.range l.length).map (fun i => l.getD i d) = l := by
  apply List.ext_getElem
  · simp
  · intro i h1 h2
    simp only [List.getElem_map, List.getElem_range]
    exact List.getD_eq_getElem l d h2

/-- The datagrams actually sent are exactly `segments_list`, in order. -/
theorem process_udp_connection_valid (packet_data : List Nat) (S : Nat)
    (hreq : unpack_request packet_data = some (MAGIC_COOKIE, MTYPE_REQUEST, S)) :
    process_udp_connection packet_data = udp_segments S := by
  have step : process_udp_connection packet_data
      = (burst_send (udp_segments S).length 0).map
          (fun i => (udp_segments S).getD i (0, 0, 0)) := by
    unfold process_udp_connection
    rw [hreq]
    simp
  rw [step, burst_send_zero, map_getD_range]

theorem udp_segments_length (S : Nat) :
    (udp_segments S).length = (S + CONST_SIZE - 1) / CONST_SIZE := by
  simp [udp_segments]

theorem udp_segments_getD (S i : Nat) (hi : i < (S + CONST_SIZE - 1) / CONST_SIZE) :
    (udp_segments S).getD i (0, 0, 0)
      = ((S + CONST_SIZE - 1) / CONST_SIZE, i, min CONST_SIZE (S - i * CONST_SIZE)) := by
  have hlen : i < (udp_segments S).length := by rw [udp_segments_length]; exact hi
  rw [List.getD_eq_getElem _ _ hlen]
  simp [udp_segments]

/-- Characterization of `(S + 1023) / 1024` as `ceil(S / 1024)` for `S > 0`:
it is the unique `t` with `1024 * (t - 1) < S ≤ 1024 * t`. -/
theorem ceil_div_bounds (S : Nat) (hS : 0 < S) :
    1024 * ((S + CONST_SIZE - 1) / CONST_SIZE - 1) < S
      ∧ S ≤ 1024 * ((S + CONST_SIZE - 1) / CONST_SIZE) := by
  have hd := Nat.div_add_mod (S + 1024 - 1) 1024
  have hm : (S + 1024 - 1) % 1024 < 1024 := Nat.mod_lt _ (by norm_num)
  simp only [CONST_SIZE]
  omega

/-- **C1.** For every requested size `S > 0`, a valid Request datagram makes
the UDP server send exactly `ceil(S / 1024)` Payload datagrams, whose segment
indices are exactly `0 .. total_segments - 1` in order, where segment `i`
carries `min(1024, S - i*1024)` payload bytes; every non-final segment carries
exactly `1024` bytes and the final one between `1` and `1024`.  The count
`(S + 1023) / 1024` is `ceil(S / 1024)`: the last two conjuncts pin it as the
unique `t` with `1024 * (t - 1) < S ≤ 1024 * t`. -/
theorem claim_C1 (packet_data : List Nat) (S : Nat) (hS : 0 < S)
    (hreq : unpack_request packet_data = some (MAGIC_COOKIE, MTYPE_REQUEST, S)) :
    (process_udp_connection packet_data).length = (S + 1024 - 1) / 1024
    ∧ (process_udp_connection packet_data).map (fun seg => seg.2.1)
        = List.range ((S + 1024 - 1) / 1024)
    ∧ (∀ i, i < (S + 1024 - 1) / 1024 →
        (process_udp_connection packet_data).getD i (0, 0, 0)
          = ((S + 1024 - 1) / 1024, i, min 1024 (S - i * 1024)))
    ∧ (∀ i, i + 1 < (S + 1024 - 1) / 1024 →
        ((process_udp_connection packet_data).getD i (0, 0, 0)).2.2 = 1024)
    ∧ 0 < ((process_udp_connection packet_data).getD
            ((S + 1024 - 1) / 1024 - 1) (0, 0, 0)).2.2
    ∧ ((process_udp_connection packet_data).getD
            ((S + 1024 - 1) / 1024 - 1) (0, 0, 0)).2.2 ≤ 1024
    ∧ 1024 * ((S + 1024 - 1) / 1024 - 1) < S
    ∧ S ≤ 1024 * ((S + 1024 - 1) / 1024) := by
  have hsz : CONST_SIZE = 1024 := rfl
  have hvalid := process_udp_connection_valid packet_data S hreq
  have hceil := ceil_div_bounds S hS
  rw [hsz] at hceil
  have hgetD : ∀ i, i < (S + 1024 - 1) / 1024 →
      (process_udp_connection packet_data).getD i (0, 0, 0)
        = ((S + 1024 - 1) / 1024, i, min 1024 (S - i * 1024)) := by
    intro i hi
    rw [hvalid, udp_segments_getD S i (by rw [hsz]; exact hi), hsz]
  have htotpos : 0 < (S + 1024 - 1) / 1024 := by omega
  refine ⟨?_, ?_, hgetD, ?_, ?_, ?_, hceil.1, hceil.2⟩
  · rw [hvalid, udp_segments_length, hsz]
  · rw [hvalid]
    simp [udp_segments, List.map_map, Function.comp_def, hsz]
  · intro i hi
    rw [hgetD i (by omega)]
    show min 1024 (S - i * 1024) = 1024
    omega
  · rw [hgetD _ (by omega)]
    show 0 < min 1024 (S - ((S + 1024 - 1) / 1024 - 1) * 1024)
    omega
  · rw [hgetD _ (by omega)]
    show min 1024 (S - ((S + 1024 - 1) / 1024 - 1) * 1024) ≤ 1024
    omega

/-- Witness for C1 at `S = 1025` (a concrete valid Request datagram):
two segments, the second of length 1. -/
theorem claim_C1_witness :
    (0 < 1025
      ∧ (process_udp_connection
          [0xab, 0xcd, 0xdc, 0xba, 0x3, 0, 0, 0, 0, 0, 0, 4, 1]).length
        = (1025 + 1024 - 1) / 1024)
    ∧ process_udp_connection [0xab, 0xcd, 0xdc, 0xba, 0x3, 0, 0, 0, 0, 0, 0, 4, 1]
        = [(2, 0, 1024), (2, 1, 1)] := by
  have h := claim_C1 [0xab, 0xcd, 0xdc, 0xba, 0x3, 0, 0, 0, 0, 0, 0, 4, 1] 1025
    (by decide) (by decide)
  refine ⟨⟨by decide, h.1⟩, ?_⟩
  rw [process_udp_connection_valid _ 1025 (by decide)]
  decide

/-! ## TCP transfer server (server.py, process_tcp_connection)

The send loop: `while bytes_transferred < total_file_size:` send
`min(chunk_size, remaining)` random bytes, `chunk_size = CONST_SIZE * 8`.
Recorded as the list of chunk sizes, in send order.  The Python counter is an
`int`; for a negative total the loop body never runs, so the translation takes
the remaining byte count as a natural number (`Int.toNat` at the call site
maps negative totals to `0`, which sends nothing, exactly as the source). -/

def tcp_server_chunks (remaining : Nat) : List Nat :=
  if h : 0 < remaining then
    min (CONST_SIZE * 8) remaining :: tcp_server_chunks (remaining - min (CONST_SIZE * 8) remaining)
  else []
termination_by remaining
decreasing_by
  have : 0 < min (CONST_SIZE * 8) remaining := by
    simp only [CONST_SIZE]
    omega
  omega

theorem tcp_server_chunks_sum_aux (k : Nat) :
    ∀ remaining, remaining ≤ k → (tcp_server_chunks remaining).sum = remaining := by
  induction k with
  | zero =>
    intro remaining hle
    rw [tcp_server_chunks, dif_neg (by omega : ¬ 0 < remaining)]
    simp
    omega
  | succ k ih =>
    intro remaining hle
    rw [tcp_server_chunks]
    by_cases h : 0 < remaining
    · rw [dif_pos h]
      have hmin : 0 < min (CONST_SIZE * 8) remaining ∧ min (CONST_SIZE * 8) remaining ≤ remaining := by
        constructor
        · simp only [CONST_SIZE]; omega
        · exact Nat.min_le_right _ _
      rw [List.sum_cons, ih (remaining - min (CONST_SIZE * 8) remaining) (by omega)]
      omega
    · rw [dif_neg h]
      simp
      omega

/-- The TCP server's send loop sends exactly the requested number of bytes. -/
theorem tcp_server_chunks_sum (remaining : Nat) :
    (tcp_server_chunks remaining).sum = remaining :=
  tcp_server_chunks_sum_aux remaining remaining (Nat.le_refl _)

theorem tcp_server_chunks_le_aux (k : Nat) :
    ∀ remaining, remaining ≤ k →
      ∀ c ∈ tcp_server_chunks remaining, c ≤ CONST_SIZE * 8 := by
  induction k with
  | zero =>
    intro remaining hle c hc
    rw [tcp_server_chunks, dif_neg (by omega : ¬ 0 < remaining)] at hc
    simp at hc
  | succ k ih =>
    intro remaining hle c hc
    rw [tcp_server_chunks] at hc
    by_cases h : 0 < remaining
    · rw [dif_pos h] at hc
      rcases List.mem_cons.mp hc with h1 | h2
      · rw [h1]; exact Nat.min_le_left _ _
      · have hmin : 0 < min (CONST_SIZE * 8) remaining := by
          simp only [CONST_SIZE]; omega
        exact ih (remaining - min (CONST_SIZE * 8) remaining) (by omega) c h2
    · rw [dif_neg h] at hc
      simp at hc

/-- Every chunk the TCP server sends is at most `CONST_SIZE * 8 = 8192` bytes. -/
theorem tcp_server_chunks_le (remaining : Nat) :
    ∀ c ∈ tcp_server_chunks remaining, c ≤ CONST_SIZE * 8 :=
  tcp_server_chunks_le_aux remaining remaining (Nat.le_refl _)

/-! ## TCP transfer client (client.py, manage_tcp_connection)

The receive loop: `while bytes_received < file_size: data =
recv(min(chunk_size, file_size - bytes_received)); if not data: break;
bytes_received += len(data)`.  The network is abstracted by `recv`, mapping
the current received count to the length of the data returned by the next
`recv` call (`0` models `b''`, the peer closing).  `fuel` bounds the number of
iterations we unroll; the source loop has no such bound, and the theorems
supply enough fuel for the loop to reach its exit condition. -/

def tcp_client_loop (recv : Nat → Nat) : Nat → Nat → Nat → Nat
  | 0, _, bytes_received => bytes_received
  | fuel + 1, file_size, bytes_received =>
    if bytes_received < file_size then
      if recv bytes_received = 0 then bytes_received
      else tcp_client_loop recv fuel file_size (bytes_received + recv bytes_received)
    else bytes_received

theorem tcp_client_loop_lossless (recv : Nat → Nat) (file_size : Nat)
    (hrecv : ∀ acc, acc < file_size →
      1 ≤ recv acc ∧ recv acc ≤ min (CONST_SIZE * 8) (file_size - acc)) :
    ∀ fuel acc, acc ≤ file_size → file_size - acc ≤ fuel →
      tcp_client_loop recv fuel file_size acc = file_size := by
  intro fuel
  induction fuel with
  | zero =>
    intro acc hacc hfuel
    have : acc = file_size := by omega
    rw [this, tcp_client_loop]
  | succ fuel ih =>
    intro acc hacc hfuel
    rw [tcp_client_loop]
    by_cases h : acc < file_size
    · rw [if_pos h]
      obtain ⟨h1, h2⟩ := hrecv acc h
      rw [if_neg (by omega : ¬ recv acc = 0)]
      have hb : recv acc ≤ file_size - acc := le_trans h2 (Nat.min_le_right _ _)
      exact ih (acc + recv acc) (by omega) (by omega)
    · rw [if_neg h]
      omega

/-- **C2.** For any requested size `S` over a lossless TCP path (every `recv`
of a positive remaining count returns between `1` byte and the number of bytes
asked for), the server sends exactly `S` bytes in chunks of at most
`8192 = CONST_SIZE * 8` bytes, and the client's `bytes_received` equals
exactly `S` when its loop ends. -/
theorem claim_C2 (S : Nat) (recv : Nat → Nat)
    (hrecv : ∀ acc, acc < S →
      1 ≤ recv acc ∧ recv acc ≤ min (CONST_SIZE * 8) (S - acc)) :
    (tcp_server_chunks S).sum = S
    ∧ (∀ c ∈ tcp_server_chunks S, c ≤ 8192)
    ∧ tcp_client_loop recv S S 0 = S :=
  ⟨tcp_server_chunks_sum S, tcp_server_chunks_le S,
    tcp_client_loop_lossless recv S hrecv S 0 (Nat.zero_le _) (Nat.le_refl _)⟩

/-- Witness for C2 at `S = 5000`, with a network that returns one byte short
of the full request on each read (still lossless). -/
theorem claim_C2_witness :
    (tcp_server_chunks 5000).sum = 5000
    ∧ (∀ c ∈ tcp_server_chunks 5000, c ≤ 8192)
    ∧ tcp_client_loop (fun acc => min 1000 (5000 - acc)) 5000 5000 0 = 5000 := by
  refine claim_C2 5000 (fun acc => min 1000 (5000 - acc)) ?_
  intro acc hacc
  constructor
  · show 1 ≤ min 1000 (5000 - acc)
    omega
  · show min 1000 (5000 - acc) ≤ min (CONST_SIZE * 8) (5000 - acc)
    have : CONST_SIZE * 8 = 8192 := rfl
    omega

/-! ## TCP request parsing (server.py, process_tcp_connection)

`received_data = connection.recv(CONST_SIZE).decode().strip()` followed by
`int(received_data)`.  Python's `int(str)` strips ASCII whitespace, accepts an
optional `+`/`-` sign, then one or more decimal digits with single
underscores allowed between digits; anything else raises `ValueError`
(non-ASCII digit alphabets are outside the modelled character set — this
repository's client sends ASCII).  Crucially, `int` accepts *negative*
literals, so the `except ValueError` branch is not reached for them. -/

def is_python_space (c : Char) : Bool :=
  c = ' ' || c = '\t' || c = '\n' || c = '\r' || c = '\x0b' || c = '\x0c'

/-- Python `str.strip()`: remove leading and trailing whitespace. -/
def strip_ends (s : List Char) : List Char :=
  ((s.dropWhile is_python_space).reverse.dropWhile is_python_space).reverse

def digit_val (c : Char) : Nat := c.toNat - 48

/-- Continuation of the digit part: digits, with single underscores allowed
only between two digits. -/
def py_digits_loop : List Char → Nat → Option Nat
  | [], acc => some acc
  | c :: rest, acc =>
    if c.isDigit then py_digits_loop rest (acc * 10 + digit_val c)
    else if c = '_' then
      match rest with
      | [] => none
      | c2 :: rest2 =>
        if c2.isDigit then py_digits_loop rest2 (acc * 10 + digit_val c2) else none
    else none

/-- The digit part of a Python integer literal: at least one digit. -/
def py_digits : List Char → Option Nat
  | [] => none
  | c :: rest => if c.isDigit then py_digits_loop rest (digit_val c) else none

/-- Python `int(s)` on a decimal string: strip whitespace, optional sign,
digit part.  `none` models `ValueError`. -/
def py_int_parse (s : List Char) : Option Int :=
  match strip_ends s with
  | [] => none
  | c :: rest =>
    if c = '-' then (py_digits rest).map (fun n => -(n : Int))
    else if c = '+' then (py_digits rest).map (fun n => (n : Int))
    else (py_digits (c :: rest)).map (fun n => (n : Int))

/-- Observable outcome of one `process_tcp_connection` call:
whether the `except ValueError` branch ran (`InvalidRequest`), the sizes of
the chunks sent, and whether the `finally` block closed the connection. -/
structure TcpServerOutcome where
  invalid_request : Bool
  chunks_sent : List Nat
  closed : Bool

/-- `process_tcp_connection`: strip and parse the size line; on `ValueError`
log and send nothing; otherwise run the chunked send loop (which sends
nothing when the parsed total is negative, since `0 < total` fails); the
connection is closed on every path (`finally`). -/
def process_tcp_connection (raw : List Char) : TcpServerOutcome :=
  let received_data := strip_ends raw
  match py_int_parse received_data with
  | none => { invalid_request := true, chunks_sent := [], closed := true }
  | some total_file_size =>
    { invalid_request := false
      chunks_sent := tcp_server_chunks total_file_size.toNat
      closed := true }

/-- Modelled from the spec: a "valid non-negative integer" size line — after
stripping whitespace, a nonempty string of decimal digits.  This is the
spec-side notion that claim C6 measures the code against. -/
def is_nonneg_decimal (s : List Char) : Bool :=
  !(strip_ends s).isEmpty && (strip_ends s).all Char.isDigit

theorem tcp_server_chunks_zero : tcp_server_chunks 0 = [] := by
  rw [tcp_server_chunks]
  simp

theorem process_tcp_connection_eq (raw : List Char) :
    process_tcp_connection raw
      = match py_int_parse (strip_ends raw) with
        | none => { invalid_request := true, chunks_sent := [], closed := true }
        | some n =>
          { invalid_request := false, chunks_sent := tcp_server_chunks n.toNat,
            closed := true } := rfl

/-- **C6, counterexample.** The size line `"-5"` is not a valid non-negative
integer, yet the server does *not* fail with `InvalidRequest`: Python's
`int` parses the negative literal, the send loop sends nothing, and the
connection is closed without the `except ValueError` branch running. -/
theorem claim_C6_counterexample :
    is_nonneg_decimal ("-5".toList) = false
    ∧ (process_tcp_connection ("-5".toList)).invalid_request = false
    ∧ (process_tcp_connection ("-5".toList)).chunks_sent = []
    ∧ (process_tcp_connection ("-5".toList)).closed = true := by
  have hp : py_int_parse (strip_ends ("-5".toList)) = some (-5) := by decide
  have hproc : process_tcp_connection ("-5".toList)
      = { invalid_request := false, chunks_sent := tcp_server_chunks (Int.toNat (-5)),
          closed := true } := by
    rw [process_tcp_connection_eq, hp]
  refine ⟨by decide, ?_, ?_, ?_⟩
  · rw [hproc]
  · rw [hproc]
    show tcp_server_chunks (Int.toNat (-5)) = []
    rw [(by decide : Int.toNat (-5) = 0), tcp_server_chunks_zero]
  · rw [hproc]

/-- **C6, amended.** On each accepted TCP connection the server parses the
stripped size line with Python `int` semantics (an optionally *signed*
decimal literal).  It fails with `InvalidRequest` exactly when parsing fails,
and then sends no content; when parsing yields `n`, no error is raised and
exactly `max(n, 0)` content bytes are sent (so a negative request is accepted
silently and sends nothing); every chunk sent is at most 8192 bytes; the
connection is closed on every exit path. -/
theorem claim_C6 (raw : List Char) :
    (process_tcp_connection raw).closed = true
    ∧ (process_tcp_connection raw).invalid_request
        = (py_int_parse (strip_ends raw)).isNone
    ∧ ((process_tcp_connection raw).chunks_sent).sum
        = ((py_int_parse (strip_ends raw)).map Int.toNat).getD 0
    ∧ ∀ c ∈ (process_tcp_connection raw).chunks_sent, c ≤ 8192 := by
  rw [process_tcp_connection_eq]
  cases hp : py_int_parse (strip_ends raw) with
  | none => simp
  | some n =>
    simp only [Option.isNone_some, Option.map_some', Option.getD_some]
    refine ⟨trivial, trivial, tcp_server_chunks_sum n.toNat, ?_⟩
    intro c hc
    exact tcp_server_chunks_le n.toNat c hc

/-- Witness for C6 at the concrete size line `"12"`. -/
theorem claim_C6_witness :
    (process_tcp_connection ("12".toList)).closed = true
    ∧ (process_tcp_connection ("12".toList)).invalid_request = false
    ∧ ((process_tcp_connection ("12".toList)).chunks_sent).sum = 12 := by
  have h := claim_C6 ("12".toList)
  refine ⟨h.1, ?_, ?_⟩
  · rw [h.2.1]
    decide
  · rw [h.2.2.1]
    decide

/-! ## Discovery listener (client.py, find_server_offer)

The listener loops over received datagrams `(sender_address, offer_data)`:
a too-short/too-long buffer makes `struct.unpack('!IBHH', ...)` raise
`struct.error` (logged, `continue`); a decoded datagram with the wrong magic
cookie or message type is logged and skipped; the first valid Offer makes the
function return `(sender, udp_port, tcp_port)`.  The model runs the same loop
over a finite trace of datagrams (`none` = trace exhausted while the real
loop would still be blocked waiting). -/

def is_valid_offer (data : List Nat) : Bool :=
  match unpack_offer data with
  | some (magic_cookie, message_type, _, _) =>
    magic_cookie == MAGIC_COOKIE && message_type == MTYPE_OFFER
  | none => false

def find_server_offer {α : Type} : List (α × List Nat) → Option (α × Nat × Nat)
  | [] => none
  | (sender_address, offer_data) :: rest =>
    match unpack_offer offer_data with
    | none => find_server_offer rest
    | some (magic_cookie, message_type, udp_port, tcp_port) =>
      if magic_cookie = MAGIC_COOKIE ∧ message_type = MTYPE_OFFER then
        some (sender_address, udp_port, tcp_port)
      else find_server_offer rest

theorem find_server_offer_sound {α : Type} :
    ∀ (dgs : List (α × List Nat)) (addr : α) (up tp : Nat),
      find_server_offer dgs = some (addr, up, tp) →
      ∃ d ∈ dgs, d.1 = addr
        ∧ unpack_offer d.2 = some (MAGIC_COOKIE, MTYPE_OFFER, up, tp) := by
  intro dgs
  induction dgs with
  | nil =>
    intro addr up tp h
    simp [find_server_offer] at h
  | cons d rest ih =>
    intro addr up tp h
    obtain ⟨s, data⟩ := d
    rw [find_server_offer] at h
    split at h
    · obtain ⟨d', hd', h1, h2⟩ := ih addr up tp h
      exact ⟨d', List.mem_cons_of_mem _ hd', h1, h2⟩
    · rename_i ck mt u t hu
      by_cases hv : ck = MAGIC_COOKIE ∧ mt = MTYPE_OFFER
      · rw [if_pos hv] at h
        simp only [Option.some.injEq, Prod.mk.injEq] at h
        obtain ⟨rfl, rfl, rfl⟩ := h
        refine ⟨(s, data), List.mem_cons_self _ _, rfl, ?_⟩
        rw [hv.1, hv.2] at hu
        exact hu
      · rw [if_neg hv] at h
        obtain ⟨d', hd', h1, h2⟩ := ih addr up tp h
        exact ⟨d', List.mem_cons_of_mem _ hd', h1, h2⟩

theorem find_server_offer_skip {α : Type} (dgs : List (α × List Nat)) (s : α)
    (bad : List Nat) (hbad : is_valid_offer bad = false) :
    find_server_offer ((s, bad) :: dgs) = find_server_offer dgs := by
  rw [find_server_offer]
  split
  · rfl
  · rename_i ck mt u t hu
    rw [if_neg]
    intro hv
    simp only [is_valid_offer, hu] at hbad
    simp [hv.1, hv.2] at hbad

/-- **C4.** Whenever the discovery listener returns a triple, that triple is
derived from a datagram in the trace that decodes with the correct magic
cookie and the OFFER type (so a wrong-cookie or wrong-type datagram is never
the source of the returned triple); moreover prepending any malformed or
mismatched datagram to the trace leaves the result unchanged — it is
discarded and the loop continues. -/
theorem claim_C4 {α : Type} (dgs : List (α × List Nat)) (addr : α)
    (udp_port tcp_port : Nat)
    (h : find_server_offer dgs = some (addr, udp_port, tcp_port)) :
    (∃ d ∈ dgs, d.1 = addr
      ∧ unpack_offer d.2 = some (MAGIC_COOKIE, MTYPE_OFFER, udp_port, tcp_port))
    ∧ ∀ (s : α) (bad : List Nat), is_valid_offer bad = false →
        find_server_offer ((s, bad) :: dgs) = find_server_offer dgs :=
  ⟨find_server_offer_sound dgs addr udp_port tcp_port h,
    fun s bad hbad => find_server_offer_skip dgs s bad hbad⟩

/-- A concrete discovery trace: one malformed datagram, then a valid Offer
advertising UDP port 5 and TCP port 6, from sender address 9. -/
def offer_trace : List (Nat × List Nat) :=
  [(7, [1, 2, 3]), (9, [0xab, 0xcd, 0xdc, 0xba, 2, 0, 5, 0, 6])]

/-- Witness for C4 on `offer_trace`. -/
theorem claim_C4_witness :
    (∃ d ∈ offer_trace, d.1 = 9
      ∧ unpack_offer d.2 = some (MAGIC_COOKIE, MTYPE_OFFER, 5, 6))
    ∧ find_server_offer ((3, [0, 1]) :: offer_trace) = find_server_offer offer_trace := by
  have h := claim_C4 offer_trace 9 5 6 (by decide)
  exact ⟨h.1, h.2 3 [0, 1] (by decide)⟩

/-! ## UDP transfer client (client.py, manage_udp_connection)

The receive loop is embedded as a state machine over an event trace.  Times
are rationals (seconds).  A `datagram` event carries the two `time.time()`
samples of one loop iteration — `recv_time` (taken right after `recvfrom`,
when `last_received` is assigned) and `check_time` (taken later, in the
terminal-condition test) — plus the four header fields unpacked from the
first 21 bytes and the size of the rest (`len(received_data) - header_size`).
A `timeout` event (at time `t`) models `socket.timeout` raised by the 0.3 s
per-receive timeout.  (A datagram shorter than the 21-byte header raises
`struct.error`, which is not handled inside the loop and aborts the session;
such datagrams are outside the events modelled here.)

Faithful quirks kept from the source: `last_received` and `total_segments`
are assigned from `struct.unpack` *before* the cookie/type validation, so
even an invalid datagram overwrites them; the idle-gap test compares
`time.time()` against the `last_received` just assigned in the same
iteration. -/

structure UdpClientState where
  total_segments : Nat
  segments_received : List (Nat × Nat)
  bytes_received : Nat
  last_received : ℚ
deriving DecidableEq

inductive UdpEvent where
  | datagram (recv_time check_time : ℚ)
      (magic_cookie message_type total idx data_size : Nat)
  | timeout (t : ℚ)
deriving DecidableEq

inductive LoopExit where
  | cont
  | brk
deriving DecidableEq

/-- One iteration of the `while True:` receive loop. -/
def udp_step (st : UdpClientState) (e : UdpEvent) : UdpClientState × LoopExit :=
  match e with
  | UdpEvent.timeout _ =>
    if st.segments_received.isEmpty then (st, LoopExit.cont) else (st, LoopExit.brk)
  | UdpEvent.datagram recv_time check_time magic_cookie message_type total idx data_size =>
    let st1 := { st with last_received := recv_time, total_segments := total }
    if magic_cookie ≠ MAGIC_COOKIE ∨ message_type ≠ MTYPE_PAYLOAD then
      (st1, LoopExit.cont)
    else
      let st2 :=
        if (st1.segments_received.lookup idx).isSome then st1
        else { st1 with
          segments_received := st1.segments_received ++ [(idx, data_size)]
          bytes_received := st1.bytes_received + data_size }
      if st2.total_segments ≤ st2.segments_received.length
          ∨ (3 : ℚ) / 2 ≤ check_time - st2.last_received then
        (st2, LoopExit.brk)
      else (st2, LoopExit.cont)

/-- Run the receive loop over an event trace; the Bool records whether the
loop exited (`true`) or the trace ran out with the loop still waiting. -/
def udp_run (st : UdpClientState) : List UdpEvent → UdpClientState × Bool
  | [] => (st, false)
  | e :: es =>
    match udp_step st e with
    | (st1, LoopExit.brk) => (st1, true)
    | (st1, LoopExit.cont) => udp_run st1 es

/-- State just before the loop: `total_segments = (file_size + 1024 - 1) //
1024`, no segments, no bytes, `last_received = time.time()`. -/
def udp_client_init (file_size : Nat) (start_time : ℚ) : UdpClientState :=
  { total_segments := (file_size + 1024 - 1) / 1024
    segments_received := []
    bytes_received := 0
    last_received := start_time }

/-- The post-loop result computation: `success_precent = (len(
segments_received) / total_segments) * 100`.  When `total_segments = 0`
Python raises `ZeroDivisionError`, caught by the surrounding `except` which
logs an error — modelled as `none` (no result reported). -/
def udp_session_result (st : UdpClientState) : Option ℚ :=
  if st.total_segments = 0 then none
  else some (((st.segments_received.length : ℚ) / (st.total_segments : ℚ)) * 100)

/-- Any parsed datagram — valid or not — overwrites `total_segments` with the
header field, because the tuple assignment from `struct.unpack` happens
before the cookie/type validation. -/
theorem udp_step_total_overwrite (st : UdpClientState) (rt ct : ℚ)
    (c m tot idx ds : Nat) :
    ((udp_step st (UdpEvent.datagram rt ct c m tot idx ds)).1).total_segments
      = tot := by
  by_cases hv : c ≠ MAGIC_COOKIE ∨ m ≠ MTYPE_PAYLOAD
  · simp [udp_step, hv]
  · by_cases hl : ((st.segments_received).lookup idx).isSome
    · simp [udp_step, hv, hl, apply_ite Prod.fst]
    · simp [udp_step, hv, hl, apply_ite Prod.fst]

/-- **C7.** On a receive timeout the loop terminates if and only if at least
one segment has already been received; a timeout with zero segments received
leaves the loop waiting. -/
theorem claim_C7 (st : UdpClientState) (t : ℚ) :
    (udp_step st (UdpEvent.timeout t)).2 = LoopExit.brk
      ↔ st.segments_received ≠ [] := by
  by_cases h : st.segments_received.isEmpty
  · rw [List.isEmpty_iff] at h
    simp [udp_step, h]
  · rw [Bool.not_eq_true, List.isEmpty_eq_false] at h
    simp [udp_step, h]

/-- **C8.** Receiving a Payload whose segment index was already seen changes
neither the set of recorded segments (hence not the distinct-segment count)
nor the running byte total: accumulation is idempotent. -/
theorem claim_C8 (st : UdpClientState) (rt ct : ℚ) (total idx ds : Nat)
    (hdup : ((st.segments_received).lookup idx).isSome = true) :
    ((udp_step st (UdpEvent.datagram rt ct MAGIC_COOKIE MTYPE_PAYLOAD
        total idx ds)).1).segments_received = st.segments_received
    ∧ ((udp_step st (UdpEvent.datagram rt ct MAGIC_COOKIE MTYPE_PAYLOAD
        total idx ds)).1).segments_received.length = st.segments_received.length
    ∧ ((udp_step st (UdpEvent.datagram rt ct MAGIC_COOKIE MTYPE_PAYLOAD
        total idx ds)).1).bytes_received = st.bytes_received := by
  have key : (udp_step st (UdpEvent.datagram rt ct MAGIC_COOKIE MTYPE_PAYLOAD
      total idx ds)).1 = { st with last_received := rt, total_segments := total } := by
    simp [udp_step, hdup, apply_ite Prod.fst]
  rw [key]
  exact ⟨rfl, rfl, rfl⟩

/-- Witness for C8: a duplicate of segment 0 leaves the one recorded segment
and the byte total unchanged. -/
theorem claim_C8_witness :
    ((udp_step ⟨3, [(0, 5)], 5, 0⟩ (UdpEvent.datagram 1 1 MAGIC_COOKIE
        MTYPE_PAYLOAD 3 0 7)).1).segments_received = [(0, 5)]
    ∧ ((udp_step ⟨3, [(0, 5)], 5, 0⟩ (UdpEvent.datagram 1 1 MAGIC_COOKIE
        MTYPE_PAYLOAD 3 0 7)).1).segments_received.length = 1
    ∧ ((udp_step ⟨3, [(0, 5)], 5, 0⟩ (UdpEvent.datagram 1 1 MAGIC_COOKIE
        MTYPE_PAYLOAD 3 0 7)).1).bytes_received = 5 :=
  claim_C8 ⟨3, [(0, 5)], 5, 0⟩ 1 1 3 0 7 (by decide)

/-- **C5.** The idle-gap abort: evaluated after a successfully parsed (valid)
Payload datagram, the loop stops whenever the time elapsed since that
segment's receipt — `last_received` having just been set to its receive
time — reaches 1.5 s; and on a receive timeout with at least one segment
already received the loop also stops, so when no further datagram arrives
after the last received segment, the loop ends at the first timeout, which
(firing within 0.3 s of the last receipt) is within 1.5 s of the last
received segment. -/
theorem claim_C5 (st : UdpClientState) (rt ct t : ℚ) (total idx ds : Nat)
    (hgap : (3 : ℚ) / 2 ≤ ct - rt)
    (hseg : st.segments_received ≠ [])
    (ht : t ≤ st.last_received + 3 / 10) :
    (udp_step st (UdpEvent.datagram rt ct MAGIC_COOKIE MTYPE_PAYLOAD
        total idx ds)).2 = LoopExit.brk
    ∧ (udp_step st (UdpEvent.timeout t)).2 = LoopExit.brk
    ∧ t ≤ st.last_received + 3 / 2 := by
  refine ⟨?_, ?_, by linarith⟩
  · by_cases hl : ((st.segments_received).lookup idx).isSome
    · simp [udp_step, hl, hgap]
    · simp [udp_step, hl, hgap]
  · have h' : st.segments_received.isEmpty = false := by
      rw [List.isEmpty_eq_false]
      exact hseg
    simp [udp_step, h']

/-- Witness for C5: one segment received at time 10; a valid datagram parsed
with a 2 s gap between its receipt and the terminal check stops the loop, and
so does a timeout at time 10.2. -/
theorem claim_C5_witness :
    (udp_step ⟨3, [(0, 5)], 5, 10⟩ (UdpEvent.datagram 20 22 MAGIC_COOKIE
        MTYPE_PAYLOAD 3 1 7)).2 = LoopExit.brk
    ∧ (udp_step ⟨3, [(0, 5)], 5, 10⟩ (UdpEvent.timeout (51 / 5))).2 = LoopExit.brk
    ∧ (51 / 5 : ℚ) ≤ 10 + 3 / 2 :=
  claim_C5 ⟨3, [(0, 5)], 5, 10⟩ 20 22 (51 / 5) 3 1 7 (by norm_num) (by decide)
    (by norm_num)

/-- **C3, counterexample.** A session whose received Payload headers disagree
about `total_segments` can terminate with a completion percentage above 100:
requesting 1024 bytes (one local segment), receiving segment 0 advertising 5
total segments and then segment 1 advertising 1 total segment ends the loop
with 2 distinct segments against denominator 1 — the reported percentage is
200, outside `[0, 100]`. -/
theorem claim_C3_counterexample :
    (udp_run (udp_client_init 1024 0)
      [UdpEvent.datagram 0 0 MAGIC_COOKIE MTYPE_PAYLOAD 5 0 1024,
       UdpEvent.datagram 0 0 MAGIC_COOKIE MTYPE_PAYLOAD 1 1 1024]).2 = true
    ∧ udp_session_result (udp_run (udp_client_init 1024 0)
        [UdpEvent.datagram 0 0 MAGIC_COOKIE MTYPE_PAYLOAD 5 0 1024,
         UdpEvent.datagram 0 0 MAGIC_COOKIE MTYPE_PAYLOAD 1 1 1024]).1 = some 200
    ∧ ¬ ((200 : ℚ) ≤ 100) := by
  refine ⟨?_, ?_, by norm_num⟩
  · norm_num [udp_run, udp_step, udp_client_init, MAGIC_COOKIE, MTYPE_PAYLOAD]
  · norm_num [udp_run, udp_step, udp_client_init, udp_session_result,
      MAGIC_COOKIE, MTYPE_PAYLOAD]

/-- **C3, amended.** The reported completion percentage equals
`(distinct segments received / total_segments) × 100`, where `total_segments`
is the value held at loop exit (the one from the most recently parsed
datagram header); it lies in `[0, 100]` provided the distinct-segment count
does not exceed that `total_segments` — as is the case for traffic from this
repository's server, whose payloads all carry the true total and in-range
indices — and provided `total_segments` is nonzero (otherwise the division
raises and no result is reported). -/
theorem claim_C3 (st : UdpClientState) (h0 : 0 < st.total_segments)
    (hle : st.segments_received.length ≤ st.total_segments) :
    udp_session_result st
        = some (((st.segments_received.length : ℚ) / (st.total_segments : ℚ)) * 100)
    ∧ 0 ≤ ((st.segments_received.length : ℚ) / (st.total_segments : ℚ)) * 100
    ∧ ((st.segments_received.length : ℚ) / (st.total_segments : ℚ)) * 100 ≤ 100 := by
  have htot : (0 : ℚ) < (st.total_segments : ℚ) := by exact_mod_cast h0
  have hdiv1 : ((st.segments_received.length : ℚ) / (st.total_segments : ℚ)) ≤ 1 := by
    rw [div_le_one htot]
    exact_mod_cast hle
  have hdiv0 : (0 : ℚ) ≤ (st.segments_received.length : ℚ) / (st.total_segments : ℚ) :=
    div_nonneg (Nat.cast_nonneg _) (le_of_lt htot)
  refine ⟨?_, by linarith, by linarith⟩
  unfold udp_session_result
  rw [if_neg (by omega : ¬ st.total_segments = 0)]

/-- Witness for C3: one of two segments received gives 50 %. -/
theorem claim_C3_witness :
    udp_session_result ⟨2, [(0, 1024)], 1024, 0⟩ = some 50
    ∧ (0 : ℚ) ≤ 50 ∧ (50 : ℚ) ≤ 100 := by
  have h := claim_C3 ⟨2, [(0, 1024)], 1024, 0⟩ (by decide) (by decide)
  refine ⟨?_, by norm_num, by norm_num⟩
  rw [h.1]
  norm_num

/-- **C10, counterexample.** The denominator is *not* always the
`total_segments` of the most recently received **valid** Payload header: the
tuple assignment from `struct.unpack` precedes validation, so an
invalid-cookie datagram also overwrites it.  After a valid payload advertising
5 total segments, an invalid-cookie datagram advertising 2, and a timeout,
the session reports `1/2 × 100 = 50` — not `1/5 × 100 = 20` as the claim's
wording implies. -/
theorem claim_C10_counterexample :
    (udp_run (udp_client_init 1024 0)
      [UdpEvent.datagram 0 0 MAGIC_COOKIE MTYPE_PAYLOAD 5 0 1024,
       UdpEvent.datagram 0 0 0 MTYPE_PAYLOAD 2 7 0,
       UdpEvent.timeout 0]).2 = true
    ∧ ((udp_run (udp_client_init 1024 0)
        [UdpEvent.datagram 0 0 MAGIC_COOKIE MTYPE_PAYLOAD 5 0 1024,
         UdpEvent.datagram 0 0 0 MTYPE_PAYLOAD 2 7 0,
         UdpEvent.timeout 0]).1).total_segments = 2
    ∧ udp_session_result (udp_run (udp_client_init 1024 0)
        [UdpEvent.datagram 0 0 MAGIC_COOKIE MTYPE_PAYLOAD 5 0 1024,
         UdpEvent.datagram 0 0 0 MTYPE_PAYLOAD 2 7 0,
         UdpEvent.timeout 0]).1 = some 50
    ∧ (50 : ℚ) ≠ ((1 : ℚ) / 5) * 100 := by
  refine ⟨?_, ?_, ?_, by norm_num⟩
  · norm_num [udp_run, udp_step, udp_client_init, MAGIC_COOKIE, MTYPE_PAYLOAD]
  · norm_num [udp_run, udp_step, udp_client_init, MAGIC_COOKIE, MTYPE_PAYLOAD]
  · norm_num [udp_run, udp_step, udp_client_init, udp_session_result,
      MAGIC_COOKIE, MTYPE_PAYLOAD]

/-- **C10, amended.** The UDP client's terminal condition and
completion-percentage denominator use the `total_segments` value taken from
the most recently *parsed* datagram header — valid or not, since the unpack
precedes validation — and never the locally computed `ceil(file_size/1024)`:
a request for 2048 bytes (2 local segments) terminates after one Payload
advertising 1 total segment; a valid Payload advertising `total_segments = 0`
makes the loop break and the unguarded division raise, so the session reports
an error (`none`) instead of a result; and every parsed datagram overwrites
`total_segments` with its header field. -/
theorem claim_C10 :
    (udp_run (udp_client_init 2048 0)
        [UdpEvent.datagram 0 0 MAGIC_COOKIE MTYPE_PAYLOAD 1 0 1024]).2 = true
    ∧ (udp_run (udp_client_init 2048 0)
        [UdpEvent.datagram 0 0 MAGIC_COOKIE MTYPE_PAYLOAD 0 0 1024]).2 = true
    ∧ udp_session_result (udp_run (udp_client_init 2048 0)
        [UdpEvent.datagram 0 0 MAGIC_COOKIE MTYPE_PAYLOAD 0 0 1024]).1 = none
    ∧ ∀ (st : UdpClientState) (rt ct : ℚ) (c m tot idx ds : Nat),
        ((udp_step st (UdpEvent.datagram rt ct c m tot idx ds)).1).total_segments
          = tot := by
  refine ⟨?_, ?_, ?_, ?_⟩
  · norm_num [udp_run, udp_step, udp_client_init, MAGIC_COOKIE, MTYPE_PAYLOAD]
  · norm_num [udp_run, udp_step, udp_client_init, MAGIC_COOKIE, MTYPE_PAYLOAD]
  · norm_num [udp_run, udp_step, udp_client_init, udp_session_result,
      MAGIC_COOKIE, MTYPE_PAYLOAD]
  · intro st rt ct c m tot idx ds
    exact udp_step_total_overwrite st rt ct c m tot idx ds

/-! ## Client orchestrator (client.py, run_client)

The orchestrator thread is purely sequential; its observable actions are
embedded as an event trace.  Each iteration of the `while True:` loop emits:
one `discovery` (the blocking `find_server_offer` call), then
`thread.start()` for every one of the `tcp_conn_num + udp_conn_num` session
threads (TCP threads first, then UDP, combined index `k`), then
`thread.join()` for each in the same order.  `join` returning is exactly the
session having finished (produced its result). -/

inductive ClientEvent where
  | discovery
  | thread_start (k : Nat)
  | thread_join (k : Nat)
deriving DecidableEq

/-- One iteration of `run_client`'s outer loop. -/
def run_client_cycle (tcp_conn_num udp_conn_num : Nat) : List ClientEvent :=
  ClientEvent.discovery ::
    ((List.range (tcp_conn_num + udp_conn_num)).map ClientEvent.thread_start
      ++ (List.range (tcp_conn_num + udp_conn_num)).map ClientEvent.thread_join)

/-- The first `cycles` iterations of the outer loop. -/
def run_client_trace (tcp_conn_num udp_conn_num : Nat) : Nat → List ClientEvent
  | 0 => []
  | cycles + 1 =>
    run_client_cycle tcp_conn_num udp_conn_num
      ++ run_client_trace tcp_conn_num udp_conn_num cycles

theorem run_client_cycle_length (n m : Nat) :
    (run_client_cycle n m).length = 1 + 2 * (n + m) := by
  simp [run_client_cycle]
  omega

theorem run_client_cycle_getElem_start (n m k : Nat) (hk : k < n + m) :
    (run_client_cycle n m)[1 + k]? = some (ClientEvent.thread_start k) := by
  rw [run_client_cycle, (by omega : 1 + k = k + 1), List.getElem?_cons_succ]
  rw [List.getElem?_append_left (by simpa using hk)]
  simp [List.getElem?_map, List.getElem?_range, hk]

theorem run_client_cycle_getElem_join (n m k : Nat) (hk : k < n + m) :
    (run_client_cycle n m)[1 + (n + m) + k]? = some (ClientEvent.thread_join k) := by
  rw [run_client_cycle, (by omega : 1 + (n + m) + k = ((n + m) + k) + 1),
    List.getElem?_cons_succ]
  rw [List.getElem?_append_right (by simp)]
  simp only [List.length_map, List.length_range]
  rw [(by omega : (n + m) + k - (n + m) = k)]
  simp [List.getElem?_map, List.getElem?_range, hk]

/-- **C9.** In the orchestrator's trace, every one of the `N + M` sessions of
a cycle is started and then joined — start before join, and both strictly
before the next cycle's `discovery` event, which sits at index
`1 + 2*(N + M)`, immediately after all the joins.  So a new discovery wait
never begins until every session of the current cycle has produced its
result. -/
theorem claim_C9 (tcp_conn_num udp_conn_num : Nat) :
    (run_client_trace tcp_conn_num udp_conn_num 2)[1 + 2 * (tcp_conn_num + udp_conn_num)]?
      = some ClientEvent.discovery
    ∧ ∀ k, k < tcp_conn_num + udp_conn_num →
        (run_client_trace tcp_conn_num udp_conn_num 2)[1 + k]?
          = some (ClientEvent.thread_start k)
        ∧ (run_client_trace tcp_conn_num udp_conn_num 2)[1 + (tcp_conn_num + udp_conn_num) + k]?
          = some (ClientEvent.thread_join k)
        ∧ 1 + k < 1 + (tcp_conn_num + udp_conn_num) + k
        ∧ 1 + (tcp_conn_num + udp_conn_num) + k
            < 1 + 2 * (tcp_conn_num + udp_conn_num) := by
  have htrace : run_client_trace tcp_conn_num udp_conn_num 2
      = run_client_cycle tcp_conn_num udp_conn_num
        ++ (run_client_cycle tcp_conn_num udp_conn_num ++ []) := rfl
  have hlen := run_client_cycle_length tcp_conn_num udp_conn_num
  constructor
  · rw [htrace, List.getElem?_append_right (by omega)]
    rw [(by omega : 1 + 2 * (tcp_conn_num + udp_conn_num)
      - (run_client_cycle tcp_conn_num udp_conn_num).length = 0)]
    rw [run_client_cycle]
    simp
  · intro k hk
    refine ⟨?_, ?_, by omega, by omega⟩
    · rw [htrace, List.getElem?_append_left (by omega)]
      exact run_client_cycle_getElem_start tcp_conn_num udp_conn_num k hk
    · rw [htrace, List.getElem?_append_left (by omega)]
      exact run_client_cycle_getElem_join tcp_conn_num udp_conn_num k hk

/-- Witness for C9 with one TCP and one UDP session. -/
theorem claim_C9_witness :
    (run_client_trace 1 1 2)[1 + 2 * (1 + 1)]? = some ClientEvent.discovery
    ∧ ((run_client_trace 1 1 2)[1 + 0]? = some (ClientEvent.thread_start 0)
      ∧ (run_client_trace 1 1 2)[1 + (1 + 1) + 0]? = some (ClientEvent.thread_join 0)
      ∧ 1 + 0 < 1 + (1 + 1) + 0
      ∧ 1 + (1 + 1) + 0 < 1 + 2 * (1 + 1)) :=
  ⟨(claim_C9 1 1).1, (claim_C9 1 1).2 0 (by decide)⟩

end Speedtest
